import Mathlib

/-!
Verification of the invoice field-resolution pipeline of csv_convert.py.

The Python source is shallowly embedded: every resolver becomes a total Lean
function over lists of characters, translated clause by clause from the
source regular expressions and control flow.  External collaborators
(raw-text extraction, the learned document model, table extraction, MIME
parsing) are modelled as inputs or oracle functions, exactly as the spec
delimits them.  Character classes of the Python regexes are modelled over
the ASCII range, and monetary values are modelled as exact cent counts
(Nat), abstracting the float round-trip which is exact for all realistic
magnitudes.
-/

/-! ### Character classes (ASCII portions of the Python regex classes) -/

/-- Whitespace class of the regex escape backslash-s, ASCII portion. -/
def isWsP (c : Char) : Bool :=
  c = ' ' || c = '\t' || c = '\n' || c = '\r' || c = '\x0b' || c = '\x0c'

/-- Word character class of the regex escape backslash-w, ASCII portion. -/
def isWordC (c : Char) : Bool :=
  c.isAlphanum || c = '_'

/-- Case-insensitive literal match at the head of the input; returns the
remainder on success. -/
def ciStarts : List Char → List Char → Option (List Char)
  | [], s => some s
  | _ :: _, [] => none
  | p :: ps, c :: cs => if p.toLower = c.toLower then ciStarts ps cs else none

/-- Case-sensitive literal match at the head of the input; returns the
remainder on success. -/
def exStarts : List Char → List Char → Option (List Char)
  | [], s => some s
  | _ :: _, [] => none
  | p :: ps, c :: cs => if p = c then exStarts ps cs else none

/-- Numeric value of a list of decimal digit characters. -/
def natOfDigits (l : List Char) : Nat :=
  l.foldl (fun n c => n * 10 + (c.toNat - 48)) 0

/-! ### Vendor number matchers, from extract_vendor_number -/

/-- After a label literal: the regex tail consisting of optional whitespace,
a hash sign or the word number, then colons and whitespace, then a run of
6 to 8 digits (the capture group, greedy, so at most the first 8 digits of
the run).  Mirrors the tail of the vendor regex of csv_convert.py line 85. -/
def vendorSepDigits (r : List Char) : Option (List Char) :=
  let r2 := r.dropWhile isWsP
  let afterSep :=
    match r2 with
    | '#' :: rest => some rest
    | _ => ciStarts "number".toList r2
  match afterSep with
  | none => none
  | some r3 =>
    let r4 := r3.dropWhile (fun c => c = ':' || isWsP c)
    let ds := r4.takeWhile Char.isDigit
    if 6 ≤ ds.length then some (ds.take 8) else none

/-- One attempt of the vendor-label regex at the current position.  The label
alternation of the source regex is vendor, or acct with an optional ount
suffix (so the literals vendor, acctount, acct in backtracking order);
note the source does not match the full word account. -/
def tryVendorLabelAt (s : List Char) : Option (List Char) :=
  ((ciStarts "vendor".toList s).bind vendorSepDigits) <|>
  ((ciStarts "acctount".toList s).bind vendorSepDigits) <|>
  ((ciStarts "acct".toList s).bind vendorSepDigits)

/-- Leftmost match of the vendor-label regex (re.search semantics). -/
def searchVendorLabel : List Char → Option (List Char)
  | [] => none
  | c :: rest =>
    match tryVendorLabelAt (c :: rest) with
    | some g => some g
    | none => searchVendorLabel rest

/-- Modelled from the spec: claim C1 describes step 2 as matching a
vendor or account label.  This variant matches the full literal account,
which the source regex does not; it exists only to state the C1
counterexample. -/
def specTryVendorAt (s : List Char) : Option (List Char) :=
  ((ciStarts "vendor".toList s).bind vendorSepDigits) <|>
  ((ciStarts "account".toList s).bind vendorSepDigits)

/-- Modelled from the spec: leftmost match of the claim C1 reading of the
vendor-label step. -/
def specVendorSearch : List Char → Option (List Char)
  | [] => none
  | c :: rest =>
    match specTryVendorAt (c :: rest) with
    | some g => some g
    | none => specVendorSearch rest

/-- Whether the previous character is a word character (for word-boundary
checks at a match start). -/
def prevWord : Option Char → Bool
  | some c => isWordC c
  | none => false

/-- Whether the boundary after a token holds: end of input or a non-word
character. -/
def nonWordAfter : List Char → Bool
  | [] => true
  | c :: _ => !isWordC c

/-- One attempt of the standalone eight-digit regex (word boundary, eight
digits, word boundary) at the current position. -/
def tryEight (prev : Option Char) (s : List Char) : Option (List Char) :=
  if prevWord prev then none
  else
    let ds := s.takeWhile Char.isDigit
    if ds.length = 8 ∧ nonWordAfter (s.drop 8) = true then some ds else none

/-- Leftmost match of the standalone eight-digit regex, threading the
previous character for the leading word boundary. -/
def searchEight : Option Char → List Char → Option (List Char)
  | _, [] => none
  | prev, c :: rest =>
    match tryEight prev (c :: rest) with
    | some t => some t
    | none => searchEight (some c) rest

/-- Left zero-padding to eight characters (str.zfill(8) on a digit string). -/
def zfill8 (l : List Char) : List Char :=
  List.replicate (8 - l.length) '0' ++ l

/-! ### File name fallback (os.path.splitext of os.path.basename) -/

/-- Characters after the last slash (os.path.basename, posix). -/
def basenameL (s : List Char) : List Char :=
  s.foldl (fun acc c => if c = '/' then [] else acc ++ [c]) []

/-- Stem of a base name (os.path.splitext first component): split at the
last dot provided some earlier character of the base name is not a dot. -/
def stemL (b : List Char) : List Char :=
  let rev := b.reverse
  let afterDot := rev.takeWhile (fun c => c ≠ '.')
  if afterDot.length = rev.length then b
  else
    let beforeDot := (rev.drop (afterDot.length + 1)).reverse
    if beforeDot.any (fun c => c ≠ '.') then beforeDot else b

/-- The file base name without extension, the terminal fallback of both
identifier resolvers (csv_convert.py lines 92 and 104). -/
def fileStem (src : String) : String :=
  String.mk (stemL (basenameL src.toList))

/-! ### The structured-model signal -/

/-- The best-effort structured mapping produced by the document model,
restricted to the fixed field vocabulary of the spec.  A missing key is
none; Python truthiness makes the empty string equivalent to a missing
key at every use site. -/
structure DonutJson where
  vendor_number : Option String
  invoice_number : Option String
  invoice_id : Option String
  invoice_no : Option String
  invoice_total : Option String
  invoice_net_amount : Option String
deriving DecidableEq

/-- The empty structured mapping. -/
def emptyDonut : DonutJson := ⟨none, none, none, none, none, none⟩

/-- Python truthiness of dict.get: a present, non-empty string. -/
def truthy : Option String → Option String
  | none => none
  | some s => if s = "" then none else some s

/-- The vendor number resolver (extract_vendor_number, csv_convert.py
lines 80 to 92): structured field, else vendor-label regex zero-padded to
eight digits, else first standalone eight-digit token, else file stem. -/
def extract_vendor_number (text : String) (source_file : String) (dj : DonutJson) : String :=
  match truthy dj.vendor_number with
  | some v => v
  | none =>
    match searchVendorLabel text.toList with
    | some g => String.mk (zfill8 g)
    | none =>
      match searchEight none text.toList with
      | some t => String.mk t
      | none => fileStem source_file

/-! ### Invoice number matchers, from extract_invoice_number -/

/-- Token class of the invoice-label capture group: letters, digits, hyphen,
slash (letters of both cases, the regex is case-insensitive). -/
def invTokenC (c : Char) : Bool :=
  c.isAlpha || c.isDigit || c = '-' || c = '/'

/-- The capture group: a greedy token of 4 to 20 characters of the class. -/
def tokenAt (r : List Char) : Option (List Char) :=
  let run := r.takeWhile invTokenC
  if 4 ≤ run.length then some (run.take 20) else none

/-- The regex tail after the label words: optional whitespace, an optional
colon or hyphen (greedy, with backtracking to the empty alternative), more
optional whitespace, then the token. -/
def sepAndToken (r : List Char) : Option (List Char) :=
  let r3 := r.dropWhile isWsP
  let withSep :=
    match r3 with
    | c :: rest => if c = ':' || c = '-' then tokenAt (rest.dropWhile isWsP) else none
    | [] => none
  match withSep with
  | some t => some t
  | none => tokenAt r3

/-- One attempt of the invoice-label regex at the current position
(csv_convert.py line 97).  The word invoice must be followed by one of the
alternatives no-dot, no, hash, number; the alternatives are tried in the
backtracking order of the source pattern. -/
def tryInvoiceLabelAt (s : List Char) : Option (List Char) :=
  match ciStarts "invoice".toList s with
  | none => none
  | some r1 =>
    let r2 := r1.dropWhile isWsP
    ((ciStarts "no.".toList r2).bind sepAndToken) <|>
    ((ciStarts "no".toList r2).bind sepAndToken) <|>
    ((ciStarts "#".toList r2).bind sepAndToken) <|>
    ((ciStarts "number".toList r2).bind sepAndToken)

/-- Leftmost match of the invoice-label regex. -/
def searchInvoiceLabel : List Char → Option (List Char)
  | [] => none
  | c :: rest =>
    match tryInvoiceLabelAt (c :: rest) with
    | some t => some t
    | none => searchInvoiceLabel rest

/-- Modelled from the spec: claim C2 words step 2 with the label suffix
no-dot or hash or number OPTIONAL after the word invoice.  This variant adds
the empty alternative the claim describes; it exists only to state the C2
counterexample. -/
def specTryInvoiceLabelAt (s : List Char) : Option (List Char) :=
  match ciStarts "invoice".toList s with
  | none => none
  | some r1 =>
    let r2 := r1.dropWhile isWsP
    ((ciStarts "no.".toList r2).bind sepAndToken) <|>
    ((ciStarts "no".toList r2).bind sepAndToken) <|>
    ((ciStarts "#".toList r2).bind sepAndToken) <|>
    ((ciStarts "number".toList r2).bind sepAndToken) <|>
    sepAndToken r2

/-- Modelled from the spec: leftmost match of the claim C2 reading of the
invoice-label step. -/
def specInvoiceSearch : List Char → Option (List Char)
  | [] => none
  | c :: rest =>
    match specTryInvoiceLabelAt (c :: rest) with
    | some t => some t
    | none => specInvoiceSearch rest

/-- Token class of the date-anchored pattern: uppercase letters, digits,
hyphen (this regex is case-sensitive). -/
def upTokC (c : Char) : Bool :=
  c.isUpper || c.isDigit || c = '-'

/-- One attempt of the date-anchored regex (csv_convert.py line 100):
one or two digits, slash, one or two digits, slash, two to four digits,
mandatory whitespace, then a token of five or more characters. -/
def tryDateTokenAt (s : List Char) : Option (List Char) :=
  let d1 := s.takeWhile Char.isDigit
  if d1.length < 1 ∨ 2 < d1.length then none
  else
    match s.drop d1.length with
    | '/' :: r2 =>
      let d2 := r2.takeWhile Char.isDigit
      if d2.length < 1 ∨ 2 < d2.length then none
      else
        match r2.drop d2.length with
        | '/' :: r4 =>
          let d3 := r4.takeWhile Char.isDigit
          if d3.length < 2 ∨ 4 < d3.length then none
          else
            let r5 := r4.drop d3.length
            let ws := r5.takeWhile isWsP
            if ws.length = 0 then none
            else
              let run := (r5.drop ws.length).takeWhile upTokC
              if 5 ≤ run.length then some run else none
        | _ => none
    | _ => none

/-- Leftmost match of the date-anchored regex. -/
def searchDateToken : List Char → Option (List Char)
  | [] => none
  | c :: rest =>
    match tryDateTokenAt (c :: rest) with
    | some t => some t
    | none => searchDateToken rest

/-- One attempt of the structural pattern (csv_convert.py line 102): word
boundary, two digits, three uppercase letters, six or more digits, word
boundary. -/
def tryStructuralAt (prev : Option Char) (s : List Char) : Option (List Char) :=
  if prevWord prev then none
  else
    match s with
    | a :: b :: c :: d :: e :: rest =>
      if a.isDigit && b.isDigit && c.isUpper && d.isUpper && e.isUpper then
        let ds := rest.takeWhile Char.isDigit
        if 6 ≤ ds.length ∧ nonWordAfter (rest.drop ds.length) = true then
          some (a :: b :: c :: d :: e :: ds)
        else none
      else none
    | _ => none

/-- Leftmost match of the structural pattern, threading the previous
character for the leading word boundary. -/
def searchStructural : Option Char → List Char → Option (List Char)
  | _, [] => none
  | prev, c :: rest =>
    match tryStructuralAt prev (c :: rest) with
    | some t => some t
    | none => searchStructural (some c) rest

/-- Python str.strip on a list of characters (ASCII whitespace). -/
def pyStrip (l : List Char) : List Char :=
  ((l.dropWhile isWsP).reverse.dropWhile isWsP).reverse

/-- The invoice number resolver (extract_invoice_number, csv_convert.py
lines 94 to 104): first populated of three structured fields, else the
invoice-label regex, else the date-anchored regex, else the structural
pattern, else the file stem. -/
def extract_invoice_number (text : String) (source_file : String) (dj : DonutJson) : String :=
  match truthy dj.invoice_number <|> truthy dj.invoice_id <|> truthy dj.invoice_no with
  | some v => v
  | none =>
    match searchInvoiceLabel text.toList with
    | some t => String.mk (pyStrip t)
    | none =>
      match searchDateToken text.toList with
      | some t => String.mk t
      | none =>
        match searchStructural none text.toList with
        | some t => String.mk t
        | none => fileStem source_file

/-! ### Amount extraction, from extract_financial_details -/

/-- Character class of the amount body: digits and commas. -/
def amtDigitC (c : Char) : Bool :=
  c.isDigit || c = ','

/-- The currency alternation of the amount regex, in the backtracking order
of the source pattern (case-sensitive). -/
def currencyAt (s : List Char) : Option (List Char) :=
  (exStarts "USD".toList s) <|> (exStarts "US$".toList s) <|> (exStarts "$".toList s) <|>
  (exStarts "£".toList s) <|> (exStarts "€".toList s)

/-- One attempt of the amount regex at the current position: a negative
lookbehind for a digit, a currency marker, optional whitespace, a greedy
run of digits and commas, a dot and exactly two digits.  On success the
value in cents (commas stripped), the last consumed character, and the
rest of the input are returned. -/
def tryAmountAt (prev : Option Char) (s : List Char) : Option (Nat × Char × List Char) :=
  if (match prev with | some c => c.isDigit | none => false) then none
  else
    match currencyAt s with
    | none => none
    | some r1 =>
      let r2 := r1.dropWhile isWsP
      let run := r2.takeWhile amtDigitC
      if run.length = 0 then none
      else
        match r2.drop run.length with
        | '.' :: a :: b :: rest =>
          if a.isDigit && b.isDigit then
            some (natOfDigits (run.filter Char.isDigit) * 100 + (a.toNat - 48) * 10 + (b.toNat - 48), b, rest)
          else none
        | _ => none

/-- Non-overlapping left-to-right scan of the amount regex (re.findall),
threading the previous character for the lookbehind.  The fuel argument is
the input length; every successful match consumes at least one character,
so the fuel never runs out before the input does. -/
def findAmountsAux : Nat → Option Char → List Char → List Nat
  | 0, _, _ => []
  | _ + 1, _, [] => []
  | fuel + 1, prev, c :: rest =>
    match tryAmountAt prev (c :: rest) with
    | some (v, lc, rem) => v :: findAmountsAux fuel (some lc) rem
    | none => findAmountsAux fuel (some c) rest

/-- All amount candidates of a text, in document order, as cent counts. -/
def findAmounts (s : List Char) : List Nat :=
  findAmountsAux s.length none s

/-! ### Two-decimal formatting (the Python format specifier .2f on
values that are whole cent counts) -/

/-- Decimal digits of a natural number, most significant first, via fuel
(the fuel n+1 always suffices since n is less than 10 to the n+1). -/
def natDigitsAux : Nat → Nat → List Char → List Char
  | 0, _, acc => acc
  | fuel + 1, n, acc =>
    if n < 10 then Char.ofNat (48 + n) :: acc
    else natDigitsAux fuel (n / 10) (Char.ofNat (48 + n % 10) :: acc)

/-- Decimal rendering of a natural number. -/
def natDigits (n : Nat) : List Char :=
  natDigitsAux (n + 1) n []

/-- The two fractional digits of a cent count. -/
def pad2 (m : Nat) : List Char :=
  [Char.ofNat (48 + m / 10 % 10), Char.ofNat (48 + m % 10)]

/-- Fixed two-decimal rendering of a cent count, the shape produced by the
format specifier .2f on a nonnegative whole-cent value. -/
def formatCents (c : Nat) : String :=
  String.mk (natDigits (c / 100) ++ '.' :: pad2 (c % 100))

/-- Maximum of a list of cent counts (Python max on a nonempty list). -/
def maxList (l : List Nat) : Nat :=
  l.foldl Nat.max 0

/-- Insertion into a descending list. -/
def insertDesc (x : Nat) : List Nat → List Nat
  | [] => [x]
  | y :: ys => if y ≤ x then x :: y :: ys else y :: insertDesc x ys

/-- Descending sort (Python sorted with reverse, on values). -/
def sortDesc (l : List Nat) : List Nat :=
  l.foldr insertDesc []

/-- Full-string check for the fixed two-decimal shape: one or more digits,
a dot, exactly two digits, nothing else. -/
def isMoneyStr (s : String) : Bool :=
  let l := s.toList
  let ds := l.takeWhile Char.isDigit
  match ds, l.drop ds.length with
  | _ :: _, '.' :: a :: b :: [] => a.isDigit && b.isDigit
  | _, _ => false

/-! ### Table fallback, from extract_financial_details step 3 -/

/-- A table as extracted per page: rows of cells, a cell possibly absent. -/
abbrev Table := List (List (Option String))

/-- Prefix-anchored check of the cell pattern (re.match of a run of digits
and commas, a dot and two digits; trailing characters unconstrained). -/
def moneyStart (s : String) : Bool :=
  let l := s.toList
  let run := l.takeWhile amtDigitC
  match run, l.drop run.length with
  | _ :: _, '.' :: a :: b :: _ => a.isDigit && b.isDigit
  | _, _ => false

/-- Removal of commas (str.replace of the comma by the empty string). -/
def stripCommas (s : String) : String :=
  String.mk (s.toList.filter (fun c => c ≠ ','))

/-- The table fallback of csv_convert.py lines 128 to 139 over the per-page
table extraction results.  For each page in order, the bottom-right cell of
the first table of that page is inspected; a truthy cell matching the
pattern is taken (commas stripped) and the loop breaks; a falsy or
non-matching cell moves on to the next page; a structurally empty first
table raises IndexError, which the bare except turns into an abort of the
whole fallback. -/
def tableFallback : List (List Table) → Option String
  | [] => none
  | page :: rest =>
    match page with
    | [] => tableFallback rest
    | t :: _ =>
      match t.getLast? with
      | none => none
      | some row =>
        match row.getLast? with
        | none => none
        | some none => tableFallback rest
        | some (some c) =>
          if c = "" then tableFallback rest
          else if moneyStart c then some (stripCommas c)
          else tableFallback rest

/-- Modelled from the spec: the table fallback as claim C4 words it: the
bottom-right cell of the first table found is taken and accepted only if
it matches the pattern; if that cell does not match, no value comes from
tables.  It exists only to state the C4 counterexample. -/
def claimTableFallback : List (List Table) → Option String
  | [] => none
  | page :: rest =>
    match page with
    | [] => claimTableFallback rest
    | t :: _ =>
      match t.getLast? with
      | none => none
      | some row =>
        match row.getLast? with
        | none => none
        | some none => none
        | some (some c) =>
          if c = "" then none
          else if moneyStart c then some (stripCommas c)
          else none

/-! ### The financial details resolver -/

/-- The result of the financial details resolver: the Python dict with the
two possible keys. -/
structure FinDetails where
  invoice_total : Option String
  invoice_net_amount : Option String
deriving DecidableEq

/-- The financial details resolver (extract_financial_details,
csv_convert.py lines 106 to 141).  The tables argument stands for the
per-page table extraction of pdfplumber over the document bytes. -/
def extract_financial_details (text : String) (pages : List (List Table)) (dj : DonutJson) : FinDetails :=
  let nums := findAmounts text.toList
  let total1 :=
    match truthy dj.invoice_total with
    | some v => some v
    | none => if nums = [] then none else some (formatCents (maxList nums))
  let net :=
    match truthy dj.invoice_net_amount with
    | some v => some v
    | none =>
      if 1 < nums.length then some (formatCents ((sortDesc nums).getD 1 0))
      else if nums = [] then none
      else some (formatCents (nums.getD 0 0))
  let total2 :=
    match total1 with
    | some v => some v
    | none => tableFallback pages
  ⟨total2, net⟩

/-! ### Records, deduplication, serialization (main and write_munis_csv) -/

/-- One candidate invoice record, all four fields always present
(possibly empty strings). -/
structure InvoiceRecord where
  vendor_number : String
  invoice_number : String
  invoice_total : String
  invoice_net_amount : String
deriving DecidableEq

/-- The business key used for deduplication (csv_convert.py line 244). -/
def businessKey (r : InvoiceRecord) : String × String :=
  (r.vendor_number, r.invoice_number)

/-- The deduplication loop of csv_convert.py lines 242 to 247: a record is
kept when its key is not in the seen set, and its key is then added. -/
def dedupAux (seen : List (String × String)) : List InvoiceRecord → List InvoiceRecord
  | [] => []
  | r :: rs =>
    if businessKey r ∈ seen then dedupAux seen rs
    else r :: dedupAux (businessKey r :: seen) rs

/-- The deduplicator: first-occurrence-wins over the business key. -/
def dedup (l : List InvoiceRecord) : List InvoiceRecord :=
  dedupAux [] l

/-- The subsequence of records whose key has not appeared among the earlier
records of the input; the wording of the spec for the deduplicator, used to
check the implementation against it.  The accumulator is the prefix of the
input already passed. -/
def keepFirstsAux (pre : List InvoiceRecord) : List InvoiceRecord → List InvoiceRecord
  | [] => []
  | r :: rs =>
    if businessKey r ∈ pre.map businessKey then keepFirstsAux (pre ++ [r]) rs
    else r :: keepFirstsAux (pre ++ [r]) rs

/-- The records whose business key did not appear earlier in the input. -/
def keepFirsts (l : List InvoiceRecord) : List InvoiceRecord :=
  keepFirstsAux [] l

/-- The static configuration supplied by the command line (argparse
defaults or flags), applied identically to every record. -/
structure Config where
  remit_number : String
  invoice_date : String
  invoice_due_date : String
  po_fiscal_year : String
  po_number : String
  include_documentation : String
  separate_check : String
  contract_number : String
  invoice_description : String
  sequence_start : String
  default_org : String
  default_object : String
  project : String
  po_line_number : String
  detail_description : String
deriving DecidableEq

/-- The column-caption row written first by write_munis_csv
(csv_convert.py lines 172 to 177). -/
def captionRow : List String :=
  ["Row Type", "Vendor Number", "Remit Number", "Invoice Number",
   "Invoice Date", "Invoice Due Date", "Invoice Total", "Invoice Net Amount",
   "PO Fiscal Year", "PO Number", "Include Documentation", "Separate Check",
   "Contract Number", "Invoice Description"]

/-- The row of type 1 for one record (csv_convert.py lines 179 to 186). -/
def headerRow (r : InvoiceRecord) (a : Config) : List String :=
  ["1", r.vendor_number, a.remit_number, r.invoice_number,
   a.invoice_date, a.invoice_due_date,
   r.invoice_total, r.invoice_net_amount,
   a.po_fiscal_year, a.po_number,
   a.include_documentation, a.separate_check,
   a.contract_number, a.invoice_description]

/-- The row of type 2 for one record (csv_convert.py lines 187 to 192). -/
def detailRow (r : InvoiceRecord) (a : Config) : List String :=
  ["2", r.vendor_number, a.sequence_start, r.invoice_number,
   a.default_org, a.default_object, a.project,
   r.invoice_total, a.po_line_number,
   "", "", "", "", a.detail_description]

/-- The per-record loop of write_munis_csv: two rows per record, in record
order. -/
def writeRows (a : Config) : List InvoiceRecord → List (List String)
  | [] => []
  | r :: rs => headerRow r a :: detailRow r a :: writeRows a rs

/-- The rows written by write_munis_csv (csv_convert.py lines 169 to 192):
the caption row followed by the two rows of every record. -/
def write_munis_csv (records : List InvoiceRecord) (a : Config) : List (List String) :=
  captionRow :: writeRows a records

/-- The tail of main after record collection (csv_convert.py lines 239 to
250): an empty record list is a terminal reported condition; otherwise the
records are deduplicated and serialized. -/
def runPipeline (records : List InvoiceRecord) (a : Config) : Except String (List (List String)) :=
  if records = [] then Except.error "No PDF attachments found."
  else Except.ok (write_munis_csv (dedup records) a)

/-! ### Per-email record extraction (extract_records_from_eml) -/

/-- One MIME part of an email: its content type, its file name when
present, and its decoded payload when present (bytes modelled as an opaque
string). -/
structure EmailPart where
  content_type : String
  filename : Option String
  payload : Option String

/-- Suffix test on lists of characters (str.endswith). -/
def endsWithL (suf l : List Char) : Bool :=
  if suf.length ≤ l.length then l.drop (l.length - suf.length) == suf else false

/-- The part filter of csv_convert.py line 151: a part is processed when
its content type is application/pdf or its lowered file name ends in
.pdf (a missing file name counts as the empty string). -/
def isPdfPart (p : EmailPart) : Bool :=
  p.content_type == "application/pdf" ||
    endsWithL ".pdf".toList ((p.filename.getD "").toList.map Char.toLower)

/-- The record built for one PDF attachment (csv_convert.py lines 160 to
165).  The text, table and structured signals are supplied by the oracle
results for the payload; the source file passed to both identifier
resolvers is the path of the containing eml file, not the attachment
name. -/
def buildRecord (eml_path : String) (text : String) (pages : List (List Table)) (dj : DonutJson) : InvoiceRecord :=
  { vendor_number := extract_vendor_number text eml_path dj
    invoice_number := extract_invoice_number text eml_path dj
    invoice_total := (extract_financial_details text pages dj).invoice_total.getD ""
    invoice_net_amount := (extract_financial_details text pages dj).invoice_net_amount.getD "" }

/-- The attachment loop of extract_records_from_eml (csv_convert.py lines
143 to 167) over the parts of one message, with the external extractors
passed as oracle functions of the payload bytes.  Parts that are not PDFs
or have a falsy payload are skipped. -/
def extract_records_from_eml (eml_path : String) (textOf : String → String)
    (tablesOf : String → List (List Table)) (donutOf : String → DonutJson) :
    List EmailPart → List InvoiceRecord
  | [] => []
  | p :: ps =>
    let rest := extract_records_from_eml eml_path textOf tablesOf donutOf ps
    if isPdfPart p = true then
      match p.payload with
      | some b =>
        if b = "" then rest
        else buildRecord eml_path (textOf b) (tablesOf b) (donutOf b) :: rest
      | none => rest
    else rest

/-! ### Lemmas about the deduplicator -/

/-- The seen set of the dedup loop only matters up to the set of keys it
holds: with the same key set the loop produces the same output. -/
theorem dedupAux_eq_keepAux (rs : List InvoiceRecord) :
    ∀ (seen : List (String × String)) (pre : List InvoiceRecord),
      (∀ k, k ∈ seen ↔ k ∈ pre.map businessKey) →
      dedupAux seen rs = keepFirstsAux pre rs := by
  induction rs with
  | nil => intro seen pre _; rfl
  | cons r rs ih =>
    intro seen pre h
    unfold dedupAux keepFirstsAux
    by_cases hk : businessKey r ∈ seen
    · rw [if_pos hk, if_pos ((h _).mp hk)]
      apply ih
      intro k
      rw [h k]
      simp only [List.map_append, List.mem_append, List.map_cons, List.map_nil,
        List.mem_singleton, List.mem_cons]
      constructor
      · intro hkp; exact Or.inl hkp
      · rintro (hkp | hkr)
        · exact hkp
        · simp only [List.not_mem_nil, or_false] at hkr
          subst hkr; exact (h _).mp hk
    · rw [if_neg hk, if_neg (fun c => hk ((h _).mpr c))]
      congr 1
      apply ih
      intro k
      simp only [List.mem_cons, List.map_append, List.mem_append, List.map_cons,
        List.map_nil, List.mem_singleton, h k, List.not_mem_nil, or_false]
      tauto

/-- The dedup loop output is a sublist of its input: kept records are
passed through unmodified and in order. -/
theorem dedupAux_sublist (rs : List InvoiceRecord) :
    ∀ seen, (dedupAux seen rs).Sublist rs := by
  induction rs with
  | nil => intro _; exact List.Sublist.refl []
  | cons r rs ih =>
    intro seen
    unfold dedupAux
    by_cases hk : businessKey r ∈ seen
    · rw [if_pos hk]; exact (ih seen).cons r
    · rw [if_neg hk]; exact (ih _).cons₂ r

/-- Every record kept by the dedup loop has a key outside the seen set it
started from. -/
theorem mem_dedupAux_not_seen (rs : List InvoiceRecord) :
    ∀ seen r, r ∈ dedupAux seen rs → businessKey r ∉ seen := by
  induction rs with
  | nil => intro seen r h; simp [dedupAux] at h
  | cons a rs ih =>
    intro seen r h
    unfold dedupAux at h
    by_cases hk : businessKey a ∈ seen
    · rw [if_pos hk] at h; exact ih seen r h
    · rw [if_neg hk] at h
      rcases List.mem_cons.mp h with h1 | h2
      · subst h1; exact hk
      · intro hin
        exact ih _ r h2 (List.mem_cons_of_mem _ hin)

/-- The keys of the dedup loop output are pairwise distinct. -/
theorem dedupAux_pairwise (rs : List InvoiceRecord) :
    ∀ seen, (dedupAux seen rs).Pairwise (fun x y => businessKey x ≠ businessKey y) := by
  induction rs with
  | nil => intro _; simp [dedupAux]
  | cons a rs ih =>
    intro seen
    unfold dedupAux
    by_cases hk : businessKey a ∈ seen
    · rw [if_pos hk]; exact ih seen
    · rw [if_neg hk]
      refine List.Pairwise.cons ?_ (ih _)
      intro b hb heq
      exact mem_dedupAux_not_seen rs _ b hb (heq ▸ List.mem_cons_self _ _)

/-- On an input with pairwise distinct keys, none of them seen, the dedup
loop is the identity. -/
theorem dedupAux_of_disjoint (rs : List InvoiceRecord) :
    ∀ seen, (∀ r ∈ rs, businessKey r ∉ seen) →
      rs.Pairwise (fun x y => businessKey x ≠ businessKey y) →
      dedupAux seen rs = rs := by
  induction rs with
  | nil => intro _ _ _; rfl
  | cons a rs ih =>
    intro seen hdis hpw
    unfold dedupAux
    rw [if_neg (hdis a (List.mem_cons_self _ _))]
    congr 1
    apply ih
    · intro r hr hin
      rcases List.mem_cons.mp hin with h1 | h2
      · exact (List.pairwise_cons.mp hpw).1 r hr h1.symm
      · exact hdis r (List.mem_cons_of_mem _ hr) h2
    · exact (List.pairwise_cons.mp hpw).2

/-- C6: the deduplicator returns, in input order, exactly the records
whose business key (vendorNumber, invoiceNumber) has not appeared among
the earlier records of the input; kept records are passed through
unmodified (the output is a sublist of the input), later duplicates are
dropped entirely, and the result is a function of the input sequence. -/
theorem dedup_first_occurrence (l : List InvoiceRecord) :
    dedup l = keepFirsts l ∧ (dedup l).Sublist l := by
  constructor
  · exact dedupAux_eq_keepAux l [] [] (by simp)
  · exact dedupAux_sublist l []

/-- C7: the deduplicator is idempotent: deduplicating its own output
removes nothing further. -/
theorem dedup_idempotent (l : List InvoiceRecord) :
    dedup (dedup l) = dedup l := by
  unfold dedup
  exact dedupAux_of_disjoint _ [] (by intro r _ h; simp at h) (dedupAux_pairwise l [])

/-! ### Serializer theorems -/

/-- The per-record loop equals the flat map producing the two rows of each
record in record order. -/
theorem writeRows_eq_bind (a : Config) (records : List InvoiceRecord) :
    writeRows a records = records.flatMap (fun r => [headerRow r a, detailRow r a]) := by
  induction records with
  | nil => rfl
  | cons r rs ih => simp [writeRows, ih]

/-- A fixed configuration with distinct marker values, used for concrete
counterexample rows. -/
def cfg0 : Config :=
  ⟨"rm", "01/01/2025", "01/31/2025", "fy", "po", "inc", "sc", "cn", "idesc",
   "1", "org", "obj", "proj", "pol", "ddesc"⟩

/-- A fixed concrete record. -/
def rec0 : InvoiceRecord :=
  ⟨"00000001", "INV-1", "500.00", "450.00"⟩

/-- Counterexample to C8: the claim says the whole output consists exactly
of the per-record row pairs, but write_munis_csv first writes the fixed
column-caption row: with no records the output has one row (the claim
predicts zero), and with one record it has three rows (the claim predicts
two).  The first row is the caption row, not a record row. -/
theorem serializer_caption_row_counterexample :
    write_munis_csv [] cfg0 = [captionRow]
    ∧ (write_munis_csv [rec0] cfg0).length = 3
    ∧ (write_munis_csv [rec0] cfg0).head? = some captionRow := by
  refine ⟨rfl, rfl, rfl⟩

/-- C8 amended: each retained record yields exactly the two fixed-column
rows of types 1 and 2, sharing the record identifiers, all non-derived
values copied verbatim from the static configuration, and the whole output
is the fixed column-caption row followed by exactly these pairs in record
order. -/
theorem serializer_fixed_columns (records : List InvoiceRecord) (a : Config) :
    write_munis_csv records a
        = captionRow :: records.flatMap (fun r => [headerRow r a, detailRow r a])
    ∧ (∀ r : InvoiceRecord,
        headerRow r a
          = ["1", r.vendor_number, a.remit_number, r.invoice_number,
             a.invoice_date, a.invoice_due_date,
             r.invoice_total, r.invoice_net_amount,
             a.po_fiscal_year, a.po_number,
             a.include_documentation, a.separate_check,
             a.contract_number, a.invoice_description])
    ∧ (∀ r : InvoiceRecord,
        detailRow r a
          = ["2", r.vendor_number, a.sequence_start, r.invoice_number,
             a.default_org, a.default_object, a.project,
             r.invoice_total, a.po_line_number,
             "", "", "", "", a.detail_description]) := by
  refine ⟨?_, fun r => rfl, fun r => rfl⟩
  unfold write_munis_csv
  rw [writeRows_eq_bind]

/-- C9: with zero candidate records the run ends in the reported no-input
condition; no rows are produced and the serializer is never reached. -/
theorem no_records_terminal_error (a : Config) :
    runPipeline [] a = Except.error "No PDF attachments found." := rfl

/-! ### Lemmas about the vendor number resolver -/

/-- A truthy structured value is a non-empty string. -/
theorem truthy_some (o : Option String) (v : String) (h : truthy o = some v) : v ≠ "" := by
  cases o with
  | none => simp [truthy] at h
  | some s =>
    simp only [truthy] at h
    by_cases hs : s = ""
    · rw [if_pos hs] at h; exact absurd h (by simp)
    · rw [if_neg hs] at h
      injection h with h2
      subst h2; exact hs

/-- A successful eight-digit match has exactly eight characters. -/
theorem tryEight_length (prev : Option Char) (s t : List Char)
    (h : tryEight prev s = some t) : t.length = 8 := by
  unfold tryEight at h
  split at h
  · exact absurd h (by simp)
  · simp only [] at h
    split at h
    · rename_i hcond
      injection h with h2
      subst h2; exact hcond.1
    · exact absurd h (by simp)

/-- Any result of the eight-digit search has exactly eight characters. -/
theorem searchEight_length (s : List Char) :
    ∀ prev t, searchEight prev s = some t → t.length = 8 := by
  induction s with
  | nil => intro prev t h; simp [searchEight] at h
  | cons c rest ih =>
    intro prev t h
    unfold searchEight at h
    cases htry : tryEight prev (c :: rest) with
    | some g =>
      rw [htry] at h
      injection h with h2
      subst h2; exact tryEight_length _ _ _ htry
    | none => rw [htry] at h; exact ih _ t h

/-- A non-empty string has positive length. -/
theorem length_pos_of_ne_empty (v : String) (h : v ≠ "") : 0 < v.length := by
  cases v with
  | mk l =>
    cases l with
    | nil => exact absurd rfl h
    | cons c cs => simp [String.length]

/-- Counterexample to C1.  The claim asserts a non-empty result for every
input and describes step 2 as matching a vendor or account label.  The
source disagrees twice: with empty text, empty structured fields and an
empty file name the resolver returns the empty string; and on the text
Account number: 123456 the source regex (whose label alternation is
vendor, acct, acctount, never the full word account) finds nothing, so the
resolver falls to the file stem doc instead of the zero-padded 00123456
the claim predicts (the spec reading of step 2, specVendorSearch, does
match that text). -/
theorem vendor_resolver_counterexample :
    extract_vendor_number "" "" emptyDonut = ""
    ∧ extract_vendor_number "Account number: 123456" "doc.eml" emptyDonut = "doc"
    ∧ specVendorSearch "Account number: 123456".toList = some "123456".toList
    ∧ String.mk (zfill8 "123456".toList) = "00123456" := by
  exact ⟨rfl, rfl, rfl, rfl⟩

/-- C1 amended: the vendor number resolver never fails and tries in order
the structured field vendor_number (returned verbatim when present and
non-empty), the first match of a vendor or acct label (literals vendor,
acct, acctount, case-insensitive) followed by a 6 to 8 digit number,
left-zero-padded to eight digits, the first standalone word-bounded
eight-digit token, and the file base name without extension; each later
step runs only when every earlier step produced nothing, and the result is
non-empty whenever the file stem is non-empty. -/
theorem vendor_resolver_chain (text src : String) (dj : DonutJson) :
    (∀ v, truthy dj.vendor_number = some v → extract_vendor_number text src dj = v)
    ∧ (∀ g, truthy dj.vendor_number = none → searchVendorLabel text.toList = some g →
        extract_vendor_number text src dj = String.mk (zfill8 g))
    ∧ (∀ t, truthy dj.vendor_number = none → searchVendorLabel text.toList = none →
        searchEight none text.toList = some t →
        extract_vendor_number text src dj = String.mk t)
    ∧ (truthy dj.vendor_number = none → searchVendorLabel text.toList = none →
        searchEight none text.toList = none →
        extract_vendor_number text src dj = fileStem src)
    ∧ (0 < (fileStem src).length → 0 < (extract_vendor_number text src dj).length)
    ∧ extract_vendor_number "Vendor #: 123456" "scan.eml" emptyDonut = "00123456" := by
  refine ⟨?_, ?_, ?_, ?_, ?_, rfl⟩
  · intro v h1
    unfold extract_vendor_number
    rw [h1]
  · intro g h1 h2
    unfold extract_vendor_number
    rw [h1, h2]
  · intro t h1 h2 h3
    unfold extract_vendor_number
    rw [h1, h2, h3]
  · intro h1 h2 h3
    unfold extract_vendor_number
    rw [h1, h2, h3]
  · intro hfs
    unfold extract_vendor_number
    cases h1 : truthy dj.vendor_number with
    | some v => exact length_pos_of_ne_empty v (truthy_some _ _ h1)
    | none =>
      cases h2 : searchVendorLabel text.toList with
      | some g =>
        simp only [String.length, zfill8, List.length_append, List.length_replicate]
        omega
      | none =>
        cases h3 : searchEight none text.toList with
        | some t =>
          have h8 := searchEight_length _ _ _ h3
          simp [String.length, h8]
        | none => exact hfs

/-- Witness for C1: the chain theorem instantiated on the concrete spec
example, discharging the hypotheses by evaluation. -/
theorem vendor_resolver_chain_witness :
    truthy emptyDonut.vendor_number = none
    ∧ searchVendorLabel "Vendor #: 123456".toList = some "123456".toList
    ∧ extract_vendor_number "Vendor #: 123456" "scan.eml" emptyDonut
        = String.mk (zfill8 "123456".toList) := by
  refine ⟨rfl, rfl, ?_⟩
  exact (vendor_resolver_chain "Vendor #: 123456" "scan.eml" emptyDonut).2.1
    "123456".toList rfl rfl

/-! ### Theorems about the invoice number resolver -/

/-- Counterexample to C2.  The claim words step 2 with the label suffix
(no., hash or number) optional after the word invoice, but the source
regex requires it: on the text Invoice ABC-1234 the claim reading
(specInvoiceSearch) captures ABC-1234, while the source pattern finds
nothing and the resolver falls through to the file stem doc. -/
theorem invoice_label_required_counterexample :
    extract_invoice_number "Invoice ABC-1234" "doc.eml" emptyDonut = "doc"
    ∧ specInvoiceSearch "Invoice ABC-1234".toList = some "ABC-1234".toList
    ∧ searchInvoiceLabel "Invoice ABC-1234".toList = none := by
  exact ⟨rfl, rfl, rfl⟩

/-- C2 amended: the invoice number resolver tries in order the structured
fields invoice_number, invoice_id, invoice_no (first populated wins, in
that fixed order); then the label pattern, the word invoice followed by a
REQUIRED no., no, hash or number, an optional colon or hyphen, and a token
of 4 to 20 letters, digits, hyphens or slashes; then the date-anchored
pattern; then the structural two-digit three-uppercase six-plus-digit
pattern; then the file base name.  Each later step runs only when every
earlier one produced nothing, and within a regex step the leftmost match
wins (final conjunct: of two label matches the first in document order is
returned). -/
theorem invoice_resolver_chain (text src : String) (dj : DonutJson) :
    (∀ v, truthy dj.invoice_number = some v → extract_invoice_number text src dj = v)
    ∧ (∀ v, truthy dj.invoice_number = none → truthy dj.invoice_id = some v →
        extract_invoice_number text src dj = v)
    ∧ (∀ v, truthy dj.invoice_number = none → truthy dj.invoice_id = none →
        truthy dj.invoice_no = some v → extract_invoice_number text src dj = v)
    ∧ (∀ t, (truthy dj.invoice_number <|> truthy dj.invoice_id <|> truthy dj.invoice_no) = none →
        searchInvoiceLabel text.toList = some t →
        extract_invoice_number text src dj = String.mk (pyStrip t))
    ∧ (∀ t, (truthy dj.invoice_number <|> truthy dj.invoice_id <|> truthy dj.invoice_no) = none →
        searchInvoiceLabel text.toList = none → searchDateToken text.toList = some t →
        extract_invoice_number text src dj = String.mk t)
    ∧ (∀ t, (truthy dj.invoice_number <|> truthy dj.invoice_id <|> truthy dj.invoice_no) = none →
        searchInvoiceLabel text.toList = none → searchDateToken text.toList = none →
        searchStructural none text.toList = some t →
        extract_invoice_number text src dj = String.mk t)
    ∧ ((truthy dj.invoice_number <|> truthy dj.invoice_id <|> truthy dj.invoice_no) = none →
        searchInvoiceLabel text.toList = none → searchDateToken text.toList = none →
        searchStructural none text.toList = none →
        extract_invoice_number text src dj = fileStem src)
    ∧ extract_invoice_number "invoice # AAAA then invoice # BBBB" "d.eml" emptyDonut = "AAAA" := by
  refine ⟨?_, ?_, ?_, ?_, ?_, ?_, ?_, rfl⟩
  · intro v h1
    unfold extract_invoice_number
    rw [h1]
    simp
  · intro v h1 h2
    unfold extract_invoice_number
    rw [h1, h2]
    simp
  · intro v h1 h2 h3
    unfold extract_invoice_number
    rw [h1, h2, h3]
    simp
  · intro t hS h2
    unfold extract_invoice_number
    rw [hS, h2]
  · intro t hS h2 h3
    unfold extract_invoice_number
    rw [hS, h2, h3]
  · intro t hS h2 h3 h4
    unfold extract_invoice_number
    rw [hS, h2, h3, h4]
  · intro hS h2 h3 h4
    unfold extract_invoice_number
    rw [hS, h2, h3, h4]

/-- Witness for C2: the chain theorem instantiated on a concrete labelled
text, discharging the hypotheses by evaluation. -/
theorem invoice_resolver_chain_witness :
    (truthy emptyDonut.invoice_number <|> truthy emptyDonut.invoice_id
        <|> truthy emptyDonut.invoice_no) = none
    ∧ searchInvoiceLabel "Invoice No. 12345".toList = some "12345".toList
    ∧ extract_invoice_number "Invoice No. 12345" "d.eml" emptyDonut
        = String.mk (pyStrip "12345".toList) := by
  refine ⟨rfl, rfl, ?_⟩
  exact (invoice_resolver_chain "Invoice No. 12345" "d.eml" emptyDonut).2.2.2.1
    "12345".toList rfl rfl

/-! ### Lemmas about the financial details resolver -/

/-- A structured total is returned verbatim. -/
theorem fin_total_structured (text : String) (pages : List (List Table)) (dj : DonutJson)
    (v : String) (h : truthy dj.invoice_total = some v) :
    (extract_financial_details text pages dj).invoice_total = some v := by
  simp only [extract_financial_details, h]

/-- With no structured total and at least one text candidate, the total is
the formatted maximum of the candidates. -/
theorem fin_total_scan (text : String) (pages : List (List Table)) (dj : DonutJson)
    (h1 : truthy dj.invoice_total = none) (h2 : findAmounts text.toList ≠ []) :
    (extract_financial_details text pages dj).invoice_total
      = some (formatCents (maxList (findAmounts text.toList))) := by
  simp only [extract_financial_details, h1, if_neg h2]

/-- With no structured total and no text candidate, the total comes from
the table fallback. -/
theorem fin_total_table (text : String) (pages : List (List Table)) (dj : DonutJson)
    (h1 : truthy dj.invoice_total = none) (h2 : findAmounts text.toList = []) :
    (extract_financial_details text pages dj).invoice_total = tableFallback pages := by
  have h2a : findAmounts text.data = [] := h2
  simp [extract_financial_details, h1, h2a]

/-- A structured net amount is returned verbatim. -/
theorem fin_net_structured (text : String) (pages : List (List Table)) (dj : DonutJson)
    (v : String) (h : truthy dj.invoice_net_amount = some v) :
    (extract_financial_details text pages dj).invoice_net_amount = some v := by
  simp only [extract_financial_details, h]

/-- With no structured net amount and two or more candidates, the net
amount is the formatted second entry of the descending sort. -/
theorem fin_net_two (text : String) (pages : List (List Table)) (dj : DonutJson)
    (h1 : truthy dj.invoice_net_amount = none) (h2 : 1 < (findAmounts text.toList).length) :
    (extract_financial_details text pages dj).invoice_net_amount
      = some (formatCents ((sortDesc (findAmounts text.toList)).getD 1 0)) := by
  simp only [extract_financial_details, h1, if_pos h2]

/-- With no structured net amount and exactly one candidate, the net
amount is that sole candidate. -/
theorem fin_net_one (text : String) (pages : List (List Table)) (dj : DonutJson)
    (v : Nat) (h1 : truthy dj.invoice_net_amount = none)
    (h2 : findAmounts text.toList = [v]) :
    (extract_financial_details text pages dj).invoice_net_amount
      = some (formatCents v) := by
  have h2a : findAmounts text.data = [v] := h2
  simp [extract_financial_details, h1, h2a]

/-- C3: when a sub-field is not supplied by the structured model, the
currency-marked two-decimal amounts of the text (in document order) decide
it: the total becomes the maximum, the net amount becomes the second entry
of the descending sort (second-largest with multiplicity) when two or more
candidates exist, and a sole candidate is reused for both fields; on the
spec example with amounts 500.00 and 450.00 the total is 500.00 and the
net amount 450.00 (the unordered three-amount example shows the sort). -/
theorem financial_text_scan_max_second (text : String) (pages : List (List Table)) (dj : DonutJson) :
    (truthy dj.invoice_total = none → findAmounts text.toList ≠ [] →
      (extract_financial_details text pages dj).invoice_total
        = some (formatCents (maxList (findAmounts text.toList))))
    ∧ (truthy dj.invoice_net_amount = none → 1 < (findAmounts text.toList).length →
      (extract_financial_details text pages dj).invoice_net_amount
        = some (formatCents ((sortDesc (findAmounts text.toList)).getD 1 0)))
    ∧ (∀ v, truthy dj.invoice_total = none → truthy dj.invoice_net_amount = none →
      findAmounts text.toList = [v] →
      (extract_financial_details text pages dj).invoice_total = some (formatCents v)
      ∧ (extract_financial_details text pages dj).invoice_net_amount = some (formatCents v))
    ∧ (extract_financial_details "Total: $500.00 Net: $450.00" [] emptyDonut).invoice_total
        = some "500.00"
    ∧ (extract_financial_details "Total: $500.00 Net: $450.00" [] emptyDonut).invoice_net_amount
        = some "450.00"
    ∧ (extract_financial_details "$5.00 $9.00 $7.00" [] emptyDonut).invoice_total = some "9.00"
    ∧ (extract_financial_details "$5.00 $9.00 $7.00" [] emptyDonut).invoice_net_amount
        = some "7.00" := by
  refine ⟨?_, ?_, ?_, rfl, rfl, rfl, rfl⟩
  · exact fin_total_scan text pages dj
  · exact fin_net_two text pages dj
  · intro v h1 h2 h3
    constructor
    · rw [fin_total_scan text pages dj h1 (by rw [h3]; simp), h3]
      simp [maxList]
    · exact fin_net_one text pages dj v h2 h3

/-- Witness for C3: the degenerate single-candidate conjunct instantiated
on the one-amount spec example, discharging the hypotheses by evaluation. -/
theorem financial_text_scan_max_second_witness :
    findAmounts "$1,234.56".toList = [123456]
    ∧ (extract_financial_details "$1,234.56" [] emptyDonut).invoice_total = some "1234.56"
    ∧ (extract_financial_details "$1,234.56" [] emptyDonut).invoice_net_amount = some "1234.56" := by
  refine ⟨rfl, ?_, ?_⟩
  · exact ((financial_text_scan_max_second "$1,234.56" [] emptyDonut).2.2.1 123456 rfl rfl rfl).1
  · exact ((financial_text_scan_max_second "$1,234.56" [] emptyDonut).2.2.1 123456 rfl rfl rfl).2

/-! ### Theorems about the table fallback -/

/-- Counterexample to C4.  The claim says only the bottom-right cell of
the first table found is inspected and that a non-matching cell yields no
table value; but in the source the break is inside the accept branch, so a
non-matching first table merely moves the loop to the next page: with a
first-page table whose cell is x and a second-page table whose cell is
5.00, the claim reading yields nothing while the code resolves the total
to 5.00. -/
theorem table_fallback_crosses_pages :
    claimTableFallback [[[[some "x"]]], [[[some "5.00"]]]] = none
    ∧ (extract_financial_details "" [[[[some "x"]]], [[[some "5.00"]]]] emptyDonut).invoice_total
        = some "5.00" := by
  exact ⟨rfl, rfl⟩

/-- C4 amended: the table fallback applies only to the total and only when
the structured model and the text scan produced nothing; the net amount
never depends on the tables.  For each page in order, the bottom-right
cell of the first table of that page is inspected; the first truthy cell
matching the decimal-amount prefix pattern is taken with commas stripped,
and a page whose cell does not match is skipped in favour of the next
page. -/
theorem table_fallback_per_page (text : String) (pages : List (List Table)) (dj : DonutJson) :
    (extract_financial_details text pages dj).invoice_net_amount
      = (extract_financial_details text [] dj).invoice_net_amount
    ∧ (∀ v, truthy dj.invoice_total = some v →
        (extract_financial_details text pages dj).invoice_total = some v)
    ∧ (truthy dj.invoice_total = none → findAmounts text.toList ≠ [] →
        (extract_financial_details text pages dj).invoice_total
          = (extract_financial_details text [] dj).invoice_total)
    ∧ (truthy dj.invoice_total = none → findAmounts text.toList = [] →
        (extract_financial_details text pages dj).invoice_total = tableFallback pages)
    ∧ (∀ rest : List (List Table), tableFallback ([] :: rest) = tableFallback rest)
    ∧ (∀ (t : Table) (ts : List Table) (rest : List (List Table))
          (row : List (Option String)) (c : String),
        t.getLast? = some row → row.getLast? = some (some c) →
        ((moneyStart c = true → c ≠ "" →
            tableFallback ((t :: ts) :: rest) = some (stripCommas c))
          ∧ (moneyStart c = false → tableFallback ((t :: ts) :: rest) = tableFallback rest))) := by
  refine ⟨rfl, ?_, ?_, ?_, fun rest => rfl, ?_⟩
  · exact fin_total_structured text pages dj
  · intro h1 h2
    rw [fin_total_scan text pages dj h1 h2, fin_total_scan text [] dj h1 h2]
  · exact fin_total_table text pages dj
  · intro t ts rest row c hrow hcell
    constructor
    · intro hm hne
      simp [tableFallback, hrow, hcell, hne, hm]
    · intro hm
      by_cases hc : c = ""
      · simp [tableFallback, hrow, hcell, hc]
      · simp [tableFallback, hrow, hcell, hc, hm]

/-- Witness for C4: the fallback-gating conjunct instantiated on empty
text and a one-table page, discharging the hypotheses by evaluation. -/
theorem table_fallback_per_page_witness :
    truthy emptyDonut.invoice_total = none
    ∧ findAmounts "".toList = []
    ∧ (extract_financial_details "" [[[[some "1,234.56"]]]] emptyDonut).invoice_total
        = tableFallback [[[[some "1,234.56"]]]]
    ∧ tableFallback [[[[some "1,234.56"]]]] = some "1234.56" := by
  refine ⟨rfl, rfl, ?_, rfl⟩
  exact (table_fallback_per_page "" [[[[some "1,234.56"]]]] emptyDonut).2.2.2.1 rfl rfl

/-! ### Lemmas about two-decimal formatting -/

/-- A character built from a decimal digit value is a digit character. -/
theorem charDigit_isDigit (m : Nat) (h : m < 10) : (Char.ofNat (48 + m)).isDigit = true := by
  interval_cases m <;> decide

/-- The fuelled decimal rendering prepends a non-empty sequence of digit
characters to its accumulator whenever the fuel exceeds the value. -/
theorem natDigitsAux_spec (fuel : Nat) : ∀ (n : Nat) (acc : List Char), n < fuel →
    ∃ ds, natDigitsAux fuel n acc = ds ++ acc ∧ ds ≠ [] ∧ ∀ c ∈ ds, c.isDigit = true := by
  induction fuel with
  | zero => intro n _ h; omega
  | succ fuel ih =>
    intro n acc h
    unfold natDigitsAux
    by_cases h10 : n < 10
    · rw [if_pos h10]
      refine ⟨[Char.ofNat (48 + n)], rfl, by simp, ?_⟩
      intro c hc
      simp only [List.mem_singleton] at hc
      subst hc
      exact charDigit_isDigit n h10
    · rw [if_neg h10]
      have hlt : n / 10 < fuel := by
        have hd : n / 10 < n := Nat.div_lt_self (by omega) (by omega)
        omega
      obtain ⟨ds, heq, _, hdig⟩ := ih (n / 10) (Char.ofNat (48 + n % 10) :: acc) hlt
      refine ⟨ds ++ [Char.ofNat (48 + n % 10)], ?_, by simp, ?_⟩
      · rw [heq]; simp
      · intro c hc
        rcases List.mem_append.mp hc with h1 | h2
        · exact hdig c h1
        · simp only [List.mem_singleton] at h2
          subst h2
          exact charDigit_isDigit _ (Nat.mod_lt _ (by omega))

/-- The decimal rendering of a natural number is a non-empty digit
string. -/
theorem natDigits_spec (n : Nat) :
    natDigits n ≠ [] ∧ ∀ c ∈ natDigits n, c.isDigit = true := by
  obtain ⟨ds, heq, hne, hdig⟩ := natDigitsAux_spec (n + 1) n [] (by omega)
  unfold natDigits
  rw [heq, List.append_nil]
  exact ⟨hne, hdig⟩

/-- The digit run of a digit string followed by a dot is the digit
string. -/
theorem takeWhile_digits_dot (ds rest : List Char) (h : ∀ c ∈ ds, c.isDigit = true) :
    (ds ++ '.' :: rest).takeWhile Char.isDigit = ds := by
  induction ds with
  | nil => simp [List.takeWhile_cons]
  | cons d ds2 ih =>
    have hd := h d (List.mem_cons_self _ _)
    simp [List.takeWhile_cons, hd, ih (fun c hc => h c (List.mem_cons_of_mem _ hc))]

/-- Every formatted cent count has the fixed two-decimal shape. -/
theorem isMoneyStr_formatCents (n : Nat) : isMoneyStr (formatCents n) = true := by
  obtain ⟨hne, hdig⟩ := natDigits_spec (n / 100)
  have h1 : (formatCents n).toList = natDigits (n / 100) ++ '.' :: pad2 (n % 100) := rfl
  unfold isMoneyStr
  simp only [h1]
  rw [takeWhile_digits_dot _ _ hdig, List.drop_left]
  have ha := charDigit_isDigit (n % 100 / 10 % 10) (Nat.mod_lt _ (by omega))
  have hb := charDigit_isDigit (n % 100 % 10) (Nat.mod_lt _ (by omega))
  cases hh : natDigits (n / 100) with
  | nil => exact absurd hh hne
  | cons d ds2 => simp [pad2, ha, hb]

/-- Counterexample to C5.  The claim says every non-empty total or net
amount string, whatever its source, has the fixed two-decimal shape; but
a structured-model value is returned verbatim (here the non-numeric abc),
and a table cell is returned whole with only a prefix check and commas
stripped (here 1234.56 USD). -/
theorem structured_values_pass_through :
    (extract_financial_details "" [] ⟨none, none, none, none, some "abc", none⟩).invoice_total
        = some "abc"
    ∧ isMoneyStr "abc" = false
    ∧ (extract_financial_details "" [[[[some "1,234.56 USD"]]]] emptyDonut).invoice_total
        = some "1234.56 USD"
    ∧ isMoneyStr "1234.56 USD" = false := by
  exact ⟨rfl, rfl, rfl, rfl⟩

/-- C5 amended: every total or net amount produced by the TEXT SCAN has
the fixed two-decimal shape (and the formatter guarantees it for every
cent count); values from the structured model are passed through verbatim
and table cells are passed through with commas stripped after only a
prefix check, so those two sources need not have the shape.  The resolver
is total, so malformed or unmatched amounts are skipped, never raised. -/
theorem text_scan_two_decimal_format (text : String) (pages : List (List Table)) (dj : DonutJson) :
    (∀ n, isMoneyStr (formatCents n) = true)
    ∧ (truthy dj.invoice_total = none → findAmounts text.toList ≠ [] →
        ∃ s, (extract_financial_details text pages dj).invoice_total = some s
          ∧ isMoneyStr s = true)
    ∧ (truthy dj.invoice_net_amount = none → findAmounts text.toList ≠ [] →
        ∃ s, (extract_financial_details text pages dj).invoice_net_amount = some s
          ∧ isMoneyStr s = true) := by
  refine ⟨isMoneyStr_formatCents, ?_, ?_⟩
  · intro h1 h2
    exact ⟨_, fin_total_scan text pages dj h1 h2, isMoneyStr_formatCents _⟩
  · intro h1 h2
    cases hn : findAmounts text.toList with
    | nil => exact absurd hn h2
    | cons v rest =>
      cases rest with
      | nil => exact ⟨_, fin_net_one text pages dj v h1 hn, isMoneyStr_formatCents _⟩
      | cons w ws =>
        refine ⟨_, fin_net_two text pages dj h1 ?_, isMoneyStr_formatCents _⟩
        rw [hn]
        simp only [List.length_cons]
        omega

/-- Witness for C5: the total conjunct instantiated on a one-amount text,
discharging the hypotheses by evaluation. -/
theorem text_scan_two_decimal_format_witness :
    truthy emptyDonut.invoice_total = none
    ∧ findAmounts "$7.77".toList = [777]
    ∧ ∃ s, (extract_financial_details "$7.77" [] emptyDonut).invoice_total = some s
        ∧ isMoneyStr s = true := by
  refine ⟨rfl, rfl, ?_⟩
  exact (text_scan_two_decimal_format "$7.77" [] emptyDonut).2.1 rfl (by decide)

/-! ### Theorems about per-email extraction -/

/-- All text signals of the vendor resolver fail: no structured field, no
label match, no standalone eight-digit token. -/
def vendorFalls (text : String) (dj : DonutJson) : Prop :=
  truthy dj.vendor_number = none
  ∧ searchVendorLabel text.toList = none
  ∧ searchEight none text.toList = none

/-- All text signals of the invoice resolver fail. -/
def invoiceFalls (text : String) (dj : DonutJson) : Prop :=
  (truthy dj.invoice_number <|> truthy dj.invoice_id <|> truthy dj.invoice_no) = none
  ∧ searchInvoiceLabel text.toList = none
  ∧ searchDateToken text.toList = none
  ∧ searchStructural none text.toList = none

/-- When every text signal fails the vendor resolver returns the file
stem. -/
theorem vendor_falls_stem (text src : String) (dj : DonutJson) (h : vendorFalls text dj) :
    extract_vendor_number text src dj = fileStem src := by
  obtain ⟨h1, h2, h3⟩ := h
  unfold extract_vendor_number
  rw [h1, h2, h3]

/-- When every text signal fails the invoice resolver returns the file
stem. -/
theorem invoice_falls_stem (text src : String) (dj : DonutJson) (h : invoiceFalls text dj) :
    extract_invoice_number text src dj = fileStem src := by
  obtain ⟨h1, h2, h3, h4⟩ := h
  unfold extract_invoice_number
  rw [h1, h2, h3, h4]

/-- C10: for every PDF attachment of an email file the terminal filename
fallback of both identifier resolvers is the base name of the CONTAINING
eml file (extract_records_from_eml passes eml_path, not the attachment
name, to both resolvers); hence two attachments of one email whose vendor
and invoice signals all fail receive the identical business key
(stem, stem), and the deduplicator collapses their two records into the
first one. -/
theorem eml_filename_fallback_collapse (eml_path : String) (p1 p2 : EmailPart) (b1 b2 : String)
    (textOf : String → String) (tablesOf : String → List (List Table))
    (donutOf : String → DonutJson)
    (hp1 : isPdfPart p1 = true) (hp2 : isPdfPart p2 = true)
    (hb1 : p1.payload = some b1) (hb2 : p2.payload = some b2)
    (hne1 : ¬ b1 = "") (hne2 : ¬ b2 = "")
    (hv1 : vendorFalls (textOf b1) (donutOf b1)) (hv2 : vendorFalls (textOf b2) (donutOf b2))
    (hi1 : invoiceFalls (textOf b1) (donutOf b1)) (hi2 : invoiceFalls (textOf b2) (donutOf b2)) :
    ∃ r1 r2,
      extract_records_from_eml eml_path textOf tablesOf donutOf [p1, p2] = [r1, r2]
      ∧ r1.vendor_number = fileStem eml_path ∧ r1.invoice_number = fileStem eml_path
      ∧ r2.vendor_number = fileStem eml_path ∧ r2.invoice_number = fileStem eml_path
      ∧ businessKey r1 = businessKey r2
      ∧ dedup [r1, r2] = [r1] := by
  refine ⟨buildRecord eml_path (textOf b1) (tablesOf b1) (donutOf b1),
          buildRecord eml_path (textOf b2) (tablesOf b2) (donutOf b2), ?_, ?_, ?_, ?_, ?_, ?_, ?_⟩
  · simp [extract_records_from_eml, hb1, hb2, hp1, hp2]
    rw [if_neg hne1, if_neg hne2]
  · exact vendor_falls_stem _ _ _ hv1
  · exact invoice_falls_stem _ _ _ hi1
  · exact vendor_falls_stem _ _ _ hv2
  · exact invoice_falls_stem _ _ _ hi2
  · unfold businessKey buildRecord
    rw [vendor_falls_stem _ _ _ hv1, vendor_falls_stem _ _ _ hv2,
      invoice_falls_stem _ _ _ hi1, invoice_falls_stem _ _ _ hi2]
  · have hkey : businessKey (buildRecord eml_path (textOf b2) (tablesOf b2) (donutOf b2))
        = businessKey (buildRecord eml_path (textOf b1) (tablesOf b1) (donutOf b1)) := by
      unfold businessKey buildRecord
      rw [vendor_falls_stem _ _ _ hv1, vendor_falls_stem _ _ _ hv2,
        invoice_falls_stem _ _ _ hi1, invoice_falls_stem _ _ _ hi2]
    simp [dedup, dedupAux, hkey]

/-- Witness for C10: two PDF attachments of one email, both with empty
text and empty structured output, collapse to one record keyed by the
stem of the containing eml file. -/
theorem eml_filename_fallback_collapse_witness :
    ∃ r1 r2,
      extract_records_from_eml "inbox/invoices.eml" (fun _ => "") (fun _ => [])
          (fun _ => emptyDonut)
          [⟨"application/pdf", some "a.pdf", some "B1"⟩,
           ⟨"application/pdf", some "b.pdf", some "B2"⟩] = [r1, r2]
      ∧ r1.vendor_number = fileStem "inbox/invoices.eml"
      ∧ r1.invoice_number = fileStem "inbox/invoices.eml"
      ∧ r2.vendor_number = fileStem "inbox/invoices.eml"
      ∧ r2.invoice_number = fileStem "inbox/invoices.eml"
      ∧ businessKey r1 = businessKey r2
      ∧ dedup [r1, r2] = [r1] := by
  exact eml_filename_fallback_collapse "inbox/invoices.eml"
    ⟨"application/pdf", some "a.pdf", some "B1"⟩
    ⟨"application/pdf", some "b.pdf", some "B2"⟩
    "B1" "B2" (fun _ => "") (fun _ => []) (fun _ => emptyDonut)
    rfl rfl rfl rfl (by decide) (by decide)
    ⟨rfl, rfl, rfl⟩ ⟨rfl, rfl, rfl⟩ ⟨rfl, rfl, rfl, rfl⟩ ⟨rfl, rfl, rfl, rfl⟩
